import Mathlib

/-!
Shallow embedding of the authorization decision core of the
rebac-rbac-postgres-ts repository.

The embedded code:
  - `rbac` middleware factory (src/unnamed/part_001): RBAC permission
    check over the already loaded user with nested
    roles[].role.permissions[].permission.name data.
  - `rebacResource` middleware factory (src/src/middleware/rebac.ts):
    ReBAC relationship check with ownership fast path.
  - `getRecordById` (src/src/services/record.service.ts).

Express request state is passed explicitly: the optional authenticated
user (`req.user`), the raw `req.params.id` string, and a `Store`
standing for the Prisma-backed database. Prisma read calls are modelled
as query functions over the store lists; a read that fails at the store
level (the `DatabaseError` path of the original) is modelled by the
per-table failure flags of the store. Middleware outcomes are the error
classes the middleware can pass to `next`, plus `allow` for a plain
`next()` call.
-/

/-- A row of the `PatientRecord` table, restricted to the columns the
ReBAC middleware selects (`id`, `ownerId`). -/
structure PatientRecord where
  id : Int
  ownerId : Int
deriving DecidableEq, Repr

/-- A row of the `Relationship` table: a directed typed edge. The
Prisma schema makes the triple `(subjectId, objectId, type)` unique. -/
structure Relationship where
  subjectId : Int
  objectId : Int
  type : String
deriving DecidableEq, Repr

/-- A permission row as loaded on the request user. -/
structure Permission where
  id : Int
  name : String
deriving DecidableEq, Repr

/-- Join row `role.permissions[]` of the loaded user shape. -/
structure RolePermission where
  permission : Permission
deriving DecidableEq, Repr

/-- A role row with its loaded permissions. -/
structure Role where
  id : Int
  name : String
  permissions : List RolePermission
deriving DecidableEq, Repr

/-- Join row `user.roles[]` of the loaded user shape. -/
structure UserRole where
  role : Role
deriving DecidableEq, Repr

/-- The authenticated user attached to the request by the auth
middleware (`AuthRequest.user`). -/
structure User where
  id : Int
  email : String
  name : Option String
  roles : List UserRole
deriving DecidableEq, Repr

/-- The database state the decision reads, plus per-table read-failure
flags modelling a store outage on the corresponding Prisma call. -/
structure Store where
  records : List PatientRecord
  relationships : List Relationship
  recordReadFails : Bool
  relReadFails : Bool
deriving DecidableEq, Repr

/-- A failed store read (the non-`AppError` exception path of a Prisma
call). -/
inductive DbErr where
  | unavailable
deriving DecidableEq, Repr

/-- Outcome of a middleware invocation: `allow` is a plain `next()`
call, the others are the error classes handed to `next(error)`. -/
inductive Outcome where
  | allow
  | forbidden
  | unauthorized
  | badRequest
  | notFound
  | dbError
deriving DecidableEq, Repr

/-- Store operations a decision could issue. The decision middleware
only ever issues the two read operations; the write operations exist so
that leaving the store unchanged is a meaningful statement. -/
inductive StoreOp where
  | readRecord (id : Int)
  | readRelationship (subjectId objectId : Int) (type : String)
  | createRelationship (r : Relationship)
  | deleteRecord (id : Int)
deriving DecidableEq, Repr

/-- Effect of one store operation on the store: reads leave it
unchanged, writes mutate it. -/
def applyOp (st : Store) : StoreOp → Store
  | .readRecord _ => st
  | .readRelationship _ _ _ => st
  | .createRelationship r => { st with relationships := r :: st.relationships }
  | .deleteRecord i => { st with records := st.records.filter (fun rec => rec.id != i) }

/-- Run a sequence of store operations. -/
def runOps (st : Store) (ops : List StoreOp) : Store :=
  ops.foldl applyOp st

/-- Decimal value of the longest leading digit run, `none` when there
is no leading digit (the NaN case of parseInt). -/
def digitsVal (cs : List Char) : Option Nat :=
  let ds := cs.takeWhile Char.isDigit
  if ds.isEmpty then none
  else some (ds.foldl (fun a c => a * 10 + (c.toNat - 48)) 0)

/-- JavaScript `parseInt(s, 10)`: skip leading whitespace, optional
sign, then the longest run of decimal digits; `none` models NaN. -/
def jsParseInt (s : String) : Option Int :=
  match s.toList.dropWhile Char.isWhitespace with
  | '+' :: rest => (digitsVal rest).map (fun n => (n : Int))
  | '-' :: rest => (digitsVal rest).map (fun n => -(n : Int))
  | rest => (digitsVal rest).map (fun n => (n : Int))

/-- The Prisma call `prisma.patientRecord.findUnique({ where: { id } })`
restricted to the selected columns; fails when the record table cannot
be read. -/
def findRecordQ (st : Store) (id : Int) : Except DbErr (Option PatientRecord) :=
  if st.recordReadFails then .error .unavailable
  else .ok (st.records.find? (fun r => r.id == id))

/-- The Prisma call `prisma.relationship.findUnique` on the compound
unique key `subjectId_objectId_type`; fails when the relationship table
cannot be read. -/
def findRelationshipQ (st : Store) (subjectId objectId : Int) (type : String) :
    Except DbErr (Option Relationship) :=
  if st.relReadFails then .error .unavailable
  else .ok (st.relationships.find?
    (fun r => r.subjectId == subjectId && r.objectId == objectId && r.type == type))

/-- Permission set built by the rbac middleware: the nested loops
`for userRole of user.roles / for rolePermission of userRole.role.permissions`
inserting `rolePermission.permission.name` into a `Set<string>`. -/
def resolvePermissions (u : User) : Finset String :=
  u.roles.foldl
    (fun perms userRole =>
      userRole.role.permissions.foldl
        (fun acc rolePermission => insert rolePermission.permission.name acc)
        perms)
    ∅

/-- Membership test `permissions.has(permissionName)` of the rbac
middleware: exact string equality, no wildcard or prefix matching. -/
def hasPermission (u : User) (permissionName : String) : Bool :=
  permissionName ∈ resolvePermissions u

/-- One invocation of the middleware returned by `rbac(permissionName)`
(src/unnamed/part_001): outcome together with the store operations it
issues (it issues none; the permissions are read from the loaded user). -/
def rbacRun (permissionName : String) (user : Option User) : Outcome × List StoreOp :=
  match user with
  | none => (.unauthorized, [])
  | some u =>
      if hasPermission u permissionName then (.allow, [])
      else (.forbidden, [])

/-- Outcome of the rbac middleware. -/
def rbac (permissionName : String) (user : Option User) : Outcome :=
  (rbacRun permissionName user).1

/-- Store operations issued by the rbac middleware. -/
def rbacOps (permissionName : String) (user : Option User) : List StoreOp :=
  (rbacRun permissionName user).2

/-- One invocation of the middleware returned by
`rebacResource(relationType)` (src/src/middleware/rebac.ts): outcome
together with the store operations it issues. Control flow of the
source: unauthenticated user, then `parseInt` of `req.params.id` with
the `!id || isNaN(id) || id < 1` guard, then the record lookup
(NotFound when absent), then the ownership fast path, then the
relationship edge lookup (Forbidden when no edge). A failing store
read surfaces through the catch-all branch of the try/catch. -/
def rebacRun (relationType : String) (st : Store) (user : Option User)
    (idParam : String) : Outcome × List StoreOp :=
  match user with
  | none => (.unauthorized, [])
  | some u =>
      match jsParseInt idParam with
      | none => (.badRequest, [])
      | some id =>
          if id < 1 then (.badRequest, [])
          else
            match findRecordQ st id with
            | .error _ => (.dbError, [.readRecord id])
            | .ok none => (.notFound, [.readRecord id])
            | .ok (some record) =>
                if record.ownerId = u.id then (.allow, [.readRecord id])
                else
                  match findRelationshipQ st u.id record.ownerId relationType with
                  | .error _ =>
                      (.dbError,
                        [.readRecord id, .readRelationship u.id record.ownerId relationType])
                  | .ok (some _) =>
                      (.allow,
                        [.readRecord id, .readRelationship u.id record.ownerId relationType])
                  | .ok none =>
                      (.forbidden,
                        [.readRecord id, .readRelationship u.id record.ownerId relationType])

/-- Outcome of the rebac middleware. -/
def rebacResource (relationType : String) (st : Store) (user : Option User)
    (idParam : String) : Outcome :=
  (rebacRun relationType st user idParam).1

/-- Store operations issued by the rebac middleware. -/
def rebacOps (relationType : String) (st : Store) (user : Option User)
    (idParam : String) : List StoreOp :=
  (rebacRun relationType st user idParam).2

/-- Error outcome of `getRecordById`. -/
inductive RecordErr where
  | notFound
  | database
deriving DecidableEq, Repr

/-- The service `getRecordById` (src/src/services/record.service.ts):
a missing record raises NotFoundError and is rethrown unchanged; every
other failure of the read is wrapped into a DatabaseError. -/
def getRecordById (st : Store) (id : Int) : Except RecordErr PatientRecord :=
  if st.recordReadFails then .error .database
  else
    match st.records.find? (fun r => r.id == id) with
    | none => .error .notFound
    | some r => .ok r

/-! Helper lemmas about the permission fold. -/

theorem mem_permFold (ps : List RolePermission) (acc : Finset String) (p : String) :
    p ∈ ps.foldl (fun a rp => insert rp.permission.name a) acc ↔
      p ∈ acc ∨ ∃ rp ∈ ps, rp.permission.name = p := by
  induction ps generalizing acc with
  | nil => simp
  | cons rp ps ih =>
      simp [List.foldl_cons, ih, Finset.mem_insert]
      tauto

theorem mem_roleFold (rs : List UserRole) (acc : Finset String) (p : String) :
    p ∈ rs.foldl
        (fun perms ur => ur.role.permissions.foldl
          (fun a rp => insert rp.permission.name a) perms) acc ↔
      p ∈ acc ∨ ∃ ur ∈ rs, ∃ rp ∈ ur.role.permissions, rp.permission.name = p := by
  induction rs generalizing acc with
  | nil => simp
  | cons ur rs ih =>
      simp [List.foldl_cons, ih, mem_permFold]
      aesop

theorem mem_resolvePermissions (u : User) (p : String) :
    p ∈ resolvePermissions u ↔
      ∃ ur ∈ u.roles, ∃ rp ∈ ur.role.permissions, rp.permission.name = p := by
  simpa [resolvePermissions] using mem_roleFold u.roles ∅ p

/-! Concrete sample world mirroring the seed scenario of the
repository: role doctor with record:read and record:write, a doctor
user holding that role, a patient user with no roles owning record 1,
and an assigned_to edge from the doctor to the patient. -/

def doctorRole : Role :=
  { id := 1, name := "doctor",
    permissions := [{ permission := { id := 1, name := "record:read" } },
                    { permission := { id := 2, name := "record:write" } }] }

def nurseRole : Role :=
  { id := 2, name := "nurse",
    permissions := [{ permission := { id := 1, name := "record:read" } }] }

def doctorUser : User :=
  { id := 10, email := "doc@example.com", name := some "Doc",
    roles := [{ role := doctorRole }] }

def patientUser : User :=
  { id := 20, email := "pat@example.com", name := none, roles := [] }

def record1 : PatientRecord := { id := 1, ownerId := 20 }

def seededStore : Store :=
  { records := [record1],
    relationships := [{ subjectId := 10, objectId := 20, type := "assigned_to" }],
    recordReadFails := false, relReadFails := false }

/-- Store in which only a manages edge connects the doctor to the
patient, and the relationship table is otherwise intact. -/
def managesOnlyStore : Store :=
  { records := [record1],
    relationships := [{ subjectId := 10, objectId := 20, type := "manages" }],
    recordReadFails := false, relReadFails := false }

/-- Store whose record table read fails. -/
def recordOutageStore : Store :=
  { records := [record1], relationships := [],
    recordReadFails := true, relReadFails := false }

/-- Store with record 1 present but whose relationship table read
fails. -/
def relOutageStore : Store :=
  { records := [record1], relationships := [],
    recordReadFails := false, relReadFails := true }

/-- Store with no records at all. -/
def emptyRecordStore : Store :=
  { records := [], relationships := [{ subjectId := 10, objectId := 20, type := "assigned_to" }],
    recordReadFails := false, relReadFails := false }

/-! Theorems settling the claims. -/

/-- Claim C4: ResolvePermissions is the deduplicated union, over every
role the subject is a member of, of the permission names assigned to
that role, and HasPermission is membership in that set under exact
string equality. -/
theorem resolvePermissions_union_spec (u : User) (p : String) :
    resolvePermissions u =
      (u.roles.flatMap (fun ur => ur.role.permissions.map
        (fun rp => rp.permission.name))).toFinset
    ∧ (hasPermission u p = true ↔
        ∃ ur ∈ u.roles, ∃ rp ∈ ur.role.permissions, rp.permission.name = p) := by
  constructor
  · ext q
    simp [mem_resolvePermissions, List.mem_flatMap, List.mem_map]
  · simp [hasPermission, mem_resolvePermissions]

/-- Claim C5: ResolvePermissions is monotonic in role membership:
extending the role list of a subject by one more role preserves every
previously granted permission. -/
theorem resolvePermissions_monotone (u : User) (r : UserRole) (p : String)
    (h : p ∈ resolvePermissions u) :
    p ∈ resolvePermissions { u with roles := u.roles ++ [r] } := by
  rw [mem_resolvePermissions] at h ⊢
  obtain ⟨ur, hur, hrest⟩ := h
  exact ⟨ur, List.mem_append_left _ hur, hrest⟩

/-- Witness for C5 at a concrete input: the doctor keeps record:read
after being granted the nurse role as well. -/
theorem resolvePermissions_monotone_witness :
    "record:read" ∈
      resolvePermissions { doctorUser with roles := doctorUser.roles ++ [{ role := nurseRole }] } :=
  resolvePermissions_monotone doctorUser { role := nurseRole } "record:read" (by decide)

/-- Claim C6: a subject with zero role memberships resolves to the
empty permission set, and the rbac check denies every permission name
for it. -/
theorem zero_roles_empty_and_deny (u : User) (h : u.roles = []) :
    resolvePermissions u = ∅ ∧ ∀ p : String, rbac p (some u) = Outcome.forbidden := by
  have hempty : resolvePermissions u = ∅ := by
    simp [resolvePermissions, h]
  refine ⟨hempty, fun p => ?_⟩
  simp [rbac, rbacRun, hasPermission, hempty]

/-- Witness for C6 at a concrete input: the role-less patient user. -/
theorem zero_roles_empty_and_deny_witness :
    resolvePermissions patientUser = ∅ ∧
      ∀ p : String, rbac p (some patientUser) = Outcome.forbidden :=
  zero_roles_empty_and_deny patientUser (by rfl)

/-- Claim C1: the ownership fast path. When the request id parses to a
valid id whose record read succeeds and yields a record owned by the
requesting user, the rebac middleware allows for every relationType,
whatever the relationship table holds and even when reading that table
would fail. -/
theorem rebac_ownership_fast_path (relationType : String) (st : Store) (u : User)
    (idParam : String) (id : Int) (rec : PatientRecord)
    (hparse : jsParseInt idParam = some id) (hpos : 1 ≤ id)
    (hfind : findRecordQ st id = Except.ok (some rec))
    (hown : rec.ownerId = u.id) :
    rebacResource relationType st (some u) idParam = Outcome.allow := by
  have hlt : ¬ id < 1 := by omega
  unfold rebacResource rebacRun
  rw [hparse]
  simp [hlt, hfind, hown]

/-- Witness for C1: the patient owns record 1 and is allowed under a
relationType for which no edge exists, on a store whose relationship
table read would fail if it were consulted. -/
theorem rebac_ownership_fast_path_witness :
    rebacResource "no_such_type" relOutageStore (some patientUser) "1" = Outcome.allow :=
  rebac_ownership_fast_path "no_such_type" relOutageStore patientUser "1" 1 record1
    (by rfl) (by decide) (by rfl) (by rfl)

/-- Claim C2: NotFound precedence. When the parsed id resolves to no
record, the middleware reports notFound, for every user and every
relationType, before any ownership or relationship evaluation. -/
theorem rebac_notfound_precedence (relationType : String) (st : Store) (u : User)
    (idParam : String) (id : Int)
    (hparse : jsParseInt idParam = some id) (hpos : 1 ≤ id)
    (hfind : findRecordQ st id = Except.ok none) :
    rebacResource relationType st (some u) idParam = Outcome.notFound := by
  have hlt : ¬ id < 1 := by omega
  unfold rebacResource rebacRun
  rw [hparse]
  simp [hlt, hfind]

/-- Witness for C2: record 999 does not exist, so the doctor gets
notFound even though an assigned_to edge to the patient exists. -/
theorem rebac_notfound_precedence_witness :
    rebacResource "assigned_to" emptyRecordStore (some doctorUser) "999" = Outcome.notFound :=
  rebac_notfound_precedence "assigned_to" emptyRecordStore doctorUser "999" 999
    (by rfl) (by decide) (by rfl)

/-- Claim C3: edge exactness. For a non-owner, access is allowed iff a
relationship edge with exactly the triple (subject id, owner id,
relationType) exists, and is forbidden when no such edge exists, even
if edges of other types connect the same pair. -/
theorem rebac_edge_exactness (relationType : String) (st : Store) (a : User)
    (idParam : String) (id : Int) (rec : PatientRecord)
    (hparse : jsParseInt idParam = some id) (hpos : 1 ≤ id)
    (hfind : findRecordQ st id = Except.ok (some rec))
    (hnotown : rec.ownerId ≠ a.id)
    (hread : st.relReadFails = false) :
    (rebacResource relationType st (some a) idParam = Outcome.allow ↔
      ∃ r ∈ st.relationships,
        r.subjectId = a.id ∧ r.objectId = rec.ownerId ∧ r.type = relationType)
    ∧ ((¬ ∃ r ∈ st.relationships,
          r.subjectId = a.id ∧ r.objectId = rec.ownerId ∧ r.type = relationType) →
        rebacResource relationType st (some a) idParam = Outcome.forbidden) := by
  have hlt : ¬ id < 1 := by omega
  have hq : findRelationshipQ st a.id rec.ownerId relationType =
      Except.ok (st.relationships.find? (fun r =>
        r.subjectId == a.id && r.objectId == rec.ownerId && r.type == relationType)) := by
    simp [findRelationshipQ, hread]
  cases hf : st.relationships.find? (fun r =>
      r.subjectId == a.id && r.objectId == rec.ownerId && r.type == relationType) with
  | none =>
      have hval : rebacResource relationType st (some a) idParam = Outcome.forbidden := by
        unfold rebacResource rebacRun
        rw [hparse]
        simp [hlt, hfind, hnotown, hq, hf]
      have hnone : ¬ ∃ r ∈ st.relationships,
          r.subjectId = a.id ∧ r.objectId = rec.ownerId ∧ r.type = relationType := by
        rintro ⟨r, hr, h1, h2, h3⟩
        have := List.find?_eq_none.mp hf r hr
        simp [h1, h2, h3] at this
      refine ⟨?_, fun _ => hval⟩
      rw [hval]
      simp [hnone]
  | some r =>
      have hval : rebacResource relationType st (some a) idParam = Outcome.allow := by
        unfold rebacResource rebacRun
        rw [hparse]
        simp [hlt, hfind, hnotown, hq, hf]
      have hmem : r ∈ st.relationships := List.mem_of_find?_eq_some hf
      have hpred := List.find?_some hf
      simp only [Bool.and_eq_true, beq_iff_eq] at hpred
      have hex : ∃ r ∈ st.relationships,
          r.subjectId = a.id ∧ r.objectId = rec.ownerId ∧ r.type = relationType :=
        ⟨r, hmem, hpred.1.1, hpred.1.2, hpred.2⟩
      exact ⟨by rw [hval]; simp [hex], fun hno => absurd hex hno⟩

/-- Witness for C3: with only a manages edge from the doctor to the
patient, the assigned_to check on record 1 is forbidden. -/
theorem rebac_edge_exactness_witness :
    (rebacResource "assigned_to" managesOnlyStore (some doctorUser) "1" = Outcome.allow ↔
      ∃ r ∈ managesOnlyStore.relationships,
        r.subjectId = doctorUser.id ∧ r.objectId = record1.ownerId ∧ r.type = "assigned_to")
    ∧ ((¬ ∃ r ∈ managesOnlyStore.relationships,
          r.subjectId = doctorUser.id ∧ r.objectId = record1.ownerId ∧ r.type = "assigned_to") →
        rebacResource "assigned_to" managesOnlyStore (some doctorUser) "1" = Outcome.forbidden) :=
  rebac_edge_exactness "assigned_to" managesOnlyStore doctorUser "1" 1 record1
    (by rfl) (by decide) (by rfl) (by decide) (by rfl)

/-- Claim C7: a failing backing-store read during a rebac decision
surfaces as the store-error outcome, never as forbidden, notFound or
allow; the record service likewise wraps a failed read into its
database error rather than a notFound. -/
theorem store_failure_surfaced (relationType : String) (st : Store) (u : User)
    (idParam : String) (id : Int)
    (hparse : jsParseInt idParam = some id) (hpos : 1 ≤ id)
    (hfail : st.recordReadFails = true ∨
      (st.relReadFails = true ∧
        ∃ rec, findRecordQ st id = Except.ok (some rec) ∧ rec.ownerId ≠ u.id)) :
    rebacResource relationType st (some u) idParam = Outcome.dbError
    ∧ (st.recordReadFails = true → getRecordById st id = Except.error RecordErr.database)
    ∧ Outcome.dbError ≠ Outcome.forbidden
    ∧ Outcome.dbError ≠ Outcome.notFound
    ∧ Outcome.dbError ≠ Outcome.allow := by
  have hlt : ¬ id < 1 := by omega
  refine ⟨?_, ?_, by decide, by decide, by decide⟩
  · rcases hfail with hrf | ⟨hrel, rec, hfind, hnotown⟩
    · have hq : findRecordQ st id = Except.error DbErr.unavailable := by
        simp [findRecordQ, hrf]
      unfold rebacResource rebacRun
      rw [hparse]
      simp [hlt, hq]
    · have hq : findRelationshipQ st u.id rec.ownerId relationType =
          Except.error DbErr.unavailable := by
        simp [findRelationshipQ, hrel]
      unfold rebacResource rebacRun
      rw [hparse]
      simp [hlt, hfind, hnotown, hq]
  · intro hrf
    simp [getRecordById, hrf]

/-- Witness for C7: on a store whose record table read fails, the
doctor gets the store-error outcome. -/
theorem store_failure_surfaced_witness :
    rebacResource "assigned_to" recordOutageStore (some doctorUser) "1" = Outcome.dbError
    ∧ (recordOutageStore.recordReadFails = true →
        getRecordById recordOutageStore 1 = Except.error RecordErr.database)
    ∧ Outcome.dbError ≠ Outcome.forbidden
    ∧ Outcome.dbError ≠ Outcome.notFound
    ∧ Outcome.dbError ≠ Outcome.allow :=
  store_failure_surfaced "assigned_to" recordOutageStore doctorUser "1" 1
    (by rfl) (by decide) (Or.inl (by rfl))

/-- Claim C9: a request id that does not parse to a positive integer is
rejected with badRequest before any store operation is issued. -/
theorem invalid_id_bad_request (relationType : String) (st : Store) (u : User)
    (idParam : String)
    (h : jsParseInt idParam = none ∨ ∃ id, jsParseInt idParam = some id ∧ id < 1) :
    rebacResource relationType st (some u) idParam = Outcome.badRequest
    ∧ rebacOps relationType st (some u) idParam = [] := by
  rcases h with hn | ⟨id, hs, hlt⟩
  · unfold rebacResource rebacOps rebacRun
    rw [hn]
    exact ⟨rfl, rfl⟩
  · unfold rebacResource rebacOps rebacRun
    rw [hs]
    simp [hlt]

/-- Witness for C9: the non-numeric parameter abc is rejected with no
store operation, even on a store whose reads would fail. -/
theorem invalid_id_bad_request_witness :
    rebacResource "assigned_to" recordOutageStore (some doctorUser) "abc" = Outcome.badRequest
    ∧ rebacOps "assigned_to" recordOutageStore (some doctorUser) "abc" = [] :=
  invalid_id_bad_request "assigned_to" recordOutageStore doctorUser "abc" (Or.inl (by rfl))

/-- Claim C10: with no authenticated user attached, both middleware
checks report unauthorized and issue no store operation. -/
theorem missing_user_unauthorized (relationType permissionName : String) (st : Store)
    (idParam : String) :
    rebacResource relationType st none idParam = Outcome.unauthorized
    ∧ rbac permissionName none = Outcome.unauthorized
    ∧ rebacOps relationType st none idParam = []
    ∧ rbacOps permissionName none = [] :=
  ⟨rfl, rfl, rfl, rfl⟩

/-- Claim C8: decisions are read-only. Replaying the store operations
a decision issues leaves the store unchanged, for both middleware
checks on every input: neither issues a write operation. -/
theorem decisions_read_only (relationType permissionName : String) (st : Store)
    (user : Option User) (idParam : String) :
    runOps st (rebacOps relationType st user idParam) = st
    ∧ runOps st (rbacOps permissionName user) = st := by
  constructor
  · unfold rebacOps rebacRun
    cases user with
    | none => rfl
    | some u =>
        cases hp : jsParseInt idParam with
        | none => rfl
        | some id =>
            by_cases hlt : id < 1
            · simp [hlt, runOps]
            · simp only [hlt, if_false]
              cases hr : findRecordQ st id with
              | error e => simp [runOps, applyOp]
              | ok ro =>
                  cases ro with
                  | none => simp [runOps, applyOp]
                  | some rec =>
                      by_cases how : rec.ownerId = u.id
                      · simp [how, runOps, applyOp]
                      · simp only [how, if_false]
                        cases findRelationshipQ st u.id rec.ownerId relationType with
                        | error e => simp [runOps, applyOp]
                        | ok r =>
                            cases r <;> simp [runOps, applyOp]
  · unfold rbacOps rbacRun
    cases user with
    | none => rfl
    | some u =>
        by_cases h : hasPermission u permissionName <;> simp [h, runOps]
